import Mathlib

/-!
Verification of the shopping-list generation pipeline of the recipe-organizer
repository (src/src/app/api/shopping-list/route.ts).  The file embeds, as
executable Lean definitions, the typed variant of the route (lines 318-663):
`tryParseWithCleaning` (the text-cleaning steps followed by `JSON.parse`),
`normalizeShoppingList`, `createFallbackShoppingList`, and the three-stage `POST`
orchestrator, together with the earlier untyped variant of
`normalizeShoppingList` (lines 68-125).  JSON values are modelled by a closed
inductive type; JavaScript behaviours (falsiness, `String(...)` coercion,
`Object.keys`, property access) are embedded as total functions on it.

Modelling notes, stated once here:
* machine floats appear only as the literals 0.1/0.3 (temperatures), embedded
  as rationals; JSON numbers are restricted to integers (no claim depends on
  fractional numerics);
* wall-clock fields (`responseTime`) and logging are not modelled;
* `\s` in the source's regexes is modelled by ASCII whitespace;
* the upstream Cohere client is the external collaborator: it is injected as
  a function from the call number (1-3: stage-1 attempts, 4: the cleanup
  call, 5: the reliable-model call) to `Option String`, where `none` models a
  transport/provider failure (a thrown error) and `some t` a returned raw text.
-/

namespace RecipeOrganizer

/-- Characters that are awkward to write literally under this project's
string conventions. -/
def backtickChar : Char := Char.ofNat 96

/-- The single-quote character. -/
def squoteChar : Char := Char.ofNat 39

/-- ASCII whitespace, modelling the source's `\s` and `trim()`. -/
def isWs : Char → Bool
  | ' ' => true
  | '\n' => true
  | '\t' => true
  | '\r' => true
  | _ => false

/-- JavaScript `String.prototype.trim` on the character list. -/
def trimChars (l : List Char) : List Char :=
  ((l.dropWhile isWs).reverse.dropWhile isWs).reverse

/-- `trim()` as used throughout the route (`text.trim()`). -/
def jsTrim (s : String) : String := String.mk (trimChars s.data)

/-- Does the list start with three backticks? -/
def startsWithTicks (l : List Char) : Bool :=
  match l with
  | a :: b :: c :: _ => a == backtickChar && b == backtickChar && c == backtickChar
  | _ => false

/-- After three backticks, does a case-insensitive `json` tag follow?
Returns the remainder after the tag when it does. -/
def jsonTagRest (l : List Char) : Option (List Char) :=
  match l with
  | j :: s :: o :: n :: rest =>
    if j.toLower == 'j' && s.toLower == 's' && o.toLower == 'o' && n.toLower == 'n' then
      some rest
    else none
  | _ => none

/-- `cleaned.replace(/```json\s*/gi, '')` (route.ts line 363, first replace).
Fuel-indexed scan; the wrapper passes the list length, which suffices since
every step consumes at least one character. -/
def goRemoveFencesJson : Nat → List Char → List Char
  | 0, l => l
  | _ + 1, [] => []
  | f + 1, c :: rest =>
    if startsWithTicks (c :: rest) then
      match jsonTagRest ((c :: rest).drop 3) with
      | some rest2 => goRemoveFencesJson f (rest2.dropWhile isWs)
      | none => c :: goRemoveFencesJson f rest
    else c :: goRemoveFencesJson f rest

/-- `cleaned.replace(/```\s*/g, '')` (route.ts line 363, second replace). -/
def goRemoveFencesBare : Nat → List Char → List Char
  | 0, l => l
  | _ + 1, [] => []
  | f + 1, c :: rest =>
    if startsWithTicks (c :: rest) then
      goRemoveFencesBare f (((c :: rest).drop 3).dropWhile isWs)
    else c :: goRemoveFencesBare f rest

/-- JavaScript `split('\n')` (route.ts line 366). -/
def splitOnNewline : List Char → List (List Char)
  | [] => [[]]
  | '\n' :: rest => [] :: splitOnNewline rest
  | c :: rest =>
    match splitOnNewline rest with
    | [] => [[c]]
    | h :: t => (c :: h) :: t

/-- Index of the last line containing a closing brace (route.ts 367-373). -/
def lastBraceLineIdx (ls : List (List Char)) : Option Nat :=
  ((ls.enum.filter (fun p => p.2.contains '\x7d')).map (fun p => p.1)).getLast?

/-- Route.ts 366-376: keep only the lines up to the last one containing a
closing brace; if none contains one, keep the text unchanged. -/
def truncateAfterLastBrace (l : List Char) : List Char :=
  let ls := splitOnNewline l
  match lastBraceLineIdx ls with
  | some i => List.intercalate ['\n'] (ls.take (i + 1))
  | none => l

/-- `cleaned.includes('":')` (route.ts line 379). -/
def hasQuoteColon : List Char → Bool
  | [] => false
  | a :: rest =>
    (a == '"' && (match rest with | b :: _ => b == ':' | [] => false)) || hasQuoteColon rest

/-- `cleaned.startsWith('[')` (route.ts line 379). -/
def startsWithBracket (l : List Char) : Bool :=
  match l with
  | '[' :: _ => true
  | _ => false

/-- `cleaned.replace(/^\s*\[\s*/, repl)` (route.ts lines 380 and 384). -/
def replaceLeadingBracket (repl : List Char) (l : List Char) : List Char :=
  match l.dropWhile isWs with
  | c :: rest => if c == '[' then repl ++ rest.dropWhile isWs else l
  | [] => l

/-- `cleaned.replace(/\s*\]\s*$/, '}')` (route.ts line 380). -/
def replaceTrailingBracketBrace (l : List Char) : List Char :=
  match l.reverse.dropWhile isWs with
  | c :: rest => if c == ']' then ('\x7d' :: rest.dropWhile isWs).reverse else l
  | [] => l

/-- `cleaned.match(/\x7b[\s\S]*\x7d/)` extraction (route.ts 387-390): the
greedy match runs from the first opening brace to the last closing brace,
provided the latter comes after the former; otherwise the text is unchanged. -/
def extractObjectSpan (l : List Char) : List Char :=
  match l.findIdx? (fun c => c == '\x7b') with
  | none => l
  | some p =>
    match l.reverse.findIdx? (fun c => c == '\x7d') with
    | none => l
    | some rq =>
      let q := l.length - 1 - rq
      if p < q then (l.take (q + 1)).drop p else l

/-- `cleaned.replace(/,(\s*[}\]])/g, '$1')` (route.ts line 394): drop a comma
directly preceding (up to whitespace) a closing brace or bracket; scanning
resumes after the replaced span, exactly as JavaScript's global replace. -/
def goFixTrailingCommas : Nat → List Char → List Char
  | 0, l => l
  | _ + 1, [] => []
  | f + 1, c :: rest =>
    if c == ',' then
      let ws := rest.takeWhile isWs
      match rest.drop ws.length with
      | b :: rest2 =>
        if b == '\x7d' || b == ']' then ws ++ b :: goFixTrailingCommas f rest2
        else ',' :: goFixTrailingCommas f rest
      | [] => ',' :: goFixTrailingCommas f rest
    else c :: goFixTrailingCommas f rest

/-- `cleaned.replace(/([^\\])'/g, '$1"')` (route.ts line 395): a non-backslash
character followed by a single quote becomes that character followed by a
double quote; scanning resumes after the match. -/
def fixSingleQuotes : List Char → List Char
  | [] => []
  | [c] => [c]
  | a :: b :: rest =>
    if a != '\\' && b == squoteChar then a :: '"' :: fixSingleQuotes rest
    else a :: fixSingleQuotes (b :: rest)

/-- `cleaned.replace(/,+/g, ',')` (route.ts line 396): collapse every run of
commas to a single comma. -/
def goFixMultipleCommas : Nat → List Char → List Char
  | 0, l => l
  | _ + 1, [] => []
  | f + 1, c :: rest =>
    if c == ',' then ',' :: goFixMultipleCommas f (rest.dropWhile (fun d => d == ','))
    else c :: goFixMultipleCommas f rest

/-- Wrapper for the comma-collapsing step with sufficient fuel. -/
def fixMultipleCommas (l : List Char) : List Char := goFixMultipleCommas l.length l

/-- No two adjacent commas: the normal form of the comma-collapsing step. -/
def noDoubleComma : List Char → Bool
  | [] => true
  | [_] => true
  | a :: b :: rest => !(a == ',' && b == ',') && noDoubleComma (b :: rest)

/-- The full cleaning transformation of `tryParseWithCleaning` (route.ts
358-396), i.e. everything applied to the text before `JSON.parse`. -/
def cleanChars (l0 : List Char) : List Char :=
  let c1 := trimChars l0
  let c2 := goRemoveFencesBare
    (goRemoveFencesJson c1.length c1).length (goRemoveFencesJson c1.length c1)
  let c3 := truncateAfterLastBrace c2
  let c4 :=
    if startsWithBracket c3 && hasQuoteColon c3 then
      replaceTrailingBracketBrace (replaceLeadingBracket ['\x7b'] c3)
    else c3
  let c5 := replaceLeadingBracket [] c4
  let c6 := extractObjectSpan c5
  let c7 := goFixTrailingCommas c6.length c6
  let c8 := fixSingleQuotes c7
  fixMultipleCommas c8

/-- The cleaning transformation on strings. -/
def cleanText (s : String) : String := String.mk (cleanChars s.data)

/-! ## The JSON value model

A closed tagged union for the untyped values produced by `JSON.parse` and
consumed by `normalizeShoppingList`.  Numbers are restricted to integers. -/

/-- JSON values. -/
inductive Json where
  | null : Json
  | bool (b : Bool) : Json
  | num (n : Int) : Json
  | str (s : String) : Json
  | arr (elems : List Json) : Json
  | obj (fields : List (String × Json)) : Json

/-- `typeof v === 'object' && v !== null` for JSON values: arrays and objects. -/
def Json.isObjectLike : Json → Bool
  | .arr _ => true
  | .obj _ => true
  | _ => false

/-- JavaScript falsiness of a JSON value (`null`, `false`, `0` and the empty
string are falsy; `undefined`/`NaN` cannot occur as JSON values). -/
def jsFalsy : Json → Bool
  | .null => true
  | .bool b => !b
  | .num n => n == 0
  | .str s => s == ""
  | _ => false

mutual

/-- JavaScript `String(v)` for a JSON value. -/
def jsToString : Json → String
  | .null => "null"
  | .bool b => if b then "true" else "false"
  | .num n => toString n
  | .str s => s
  | .arr l => String.intercalate "," (jsElemsToStrings l)
  | .obj _ => "[object Object]"
termination_by structural v => v

/-- Element stringification inside `String(array)`: JavaScript's
`Array.prototype.join` renders `null` elements as the empty string. -/
def jsElemsToStrings : List Json → List String
  | [] => []
  | v :: vs =>
    (match v with
     | .null => ""
     | w => jsToString w) :: jsElemsToStrings vs
termination_by structural l => l

end

/-- JavaScript property access `v.key` on a JSON value: a field lookup on
objects, `undefined` (here `none`) otherwise.  JSON objects produced by
`JSON.parse` have unique keys, so a first-match lookup is exact; arrays have
no `ingredient`/`quantity` properties. -/
def getProp : Json → String → Option Json
  | .obj fields, k => (fields.find? (fun p => p.1 == k)).map (fun p => p.2)
  | _, _ => none

/-- `x || d` on an optional JSON value: `undefined` (`none`) and falsy values
fall back to the default. -/
def truthyOrDefault (o : Option Json) (d : Json) : Json :=
  match o with
  | some v => if jsFalsy v then d else v
  | none => d

/-! ## JSON.parse

A fuel-indexed recursive-descent parser for the JSON grammar, modelling
`JSON.parse`: `none` models a thrown `SyntaxError`.  Simplifications (none of
which a claim exercises): numbers are integer literals without
fraction/exponent parts, leading zeros are accepted, raw control characters
inside strings are accepted, and `\u` escapes outside the BMP/scalar range
fall back to `Char.ofNat`'s default behaviour. -/

/-- Hexadecimal digit value. -/
def hexVal (c : Char) : Option Nat :=
  if '0' ≤ c && c ≤ '9' then some (c.toNat - 48)
  else if 'a' ≤ c && c ≤ 'f' then some (c.toNat - 87)
  else if 'A' ≤ c && c ≤ 'F' then some (c.toNat - 70)
  else none

/-- Single-character escape codes of JSON strings. -/
def escChar : Char → Option Char
  | 'n' => some '\n'
  | 't' => some '\t'
  | 'r' => some '\r'
  | 'b' => some (Char.ofNat 8)
  | 'f' => some (Char.ofNat 12)
  | '"' => some '"'
  | '\\' => some '\\'
  | '/' => some '/'
  | _ => none

/-- Parse the body of a JSON string after the opening quote; returns the
content and the remainder after the closing quote. -/
def parseStringRest : List Char → Option (List Char × List Char)
  | [] => none
  | '"' :: rest => some ([], rest)
  | '\\' :: 'u' :: h1 :: h2 :: h3 :: h4 :: rest => do
    let a ← hexVal h1
    let b ← hexVal h2
    let c ← hexVal h3
    let d ← hexVal h4
    let (s, r) ← parseStringRest rest
    pure (Char.ofNat (((a * 16 + b) * 16 + c) * 16 + d) :: s, r)
  | '\\' :: e :: rest => do
    let c ← escChar e
    let (s, r) ← parseStringRest rest
    pure (c :: s, r)
  | c :: rest => do
    let (s, r) ← parseStringRest rest
    pure (c :: s, r)

/-- Digits-to-Nat. -/
def natOfDigits (ds : List Char) : Nat :=
  ds.foldl (fun a c => a * 10 + (c.toNat - 48)) 0

/-- Parse an integer JSON number. -/
def parseNumber (l : List Char) : Option (Json × List Char) :=
  match l with
  | '-' :: rest =>
    let ds := rest.takeWhile Char.isDigit
    if ds.isEmpty then none
    else some (.num (-(natOfDigits ds : Int)), rest.drop ds.length)
  | _ =>
    let ds := l.takeWhile Char.isDigit
    if ds.isEmpty then none
    else some (.num (natOfDigits ds : Int), l.drop ds.length)

/-- Assignment into an association list with JavaScript object semantics:
an existing key keeps its position and receives the new value, a new key is
appended.  Shared by object construction in the parser,
`normalized[key] = value` in the normalizers, and duplicate-key resolution of
`JSON.parse` (last value wins). -/
def setKey {α : Type} (m : List (String × α)) (k : String) (v : α) :
    List (String × α) :=
  if m.any (fun p => p.1 == k) then
    m.map (fun p => if p.1 == k then (p.1, v) else p)
  else m ++ [(k, v)]

/-- First-match lookup in an association list. -/
def lookupKey {α : Type} (m : List (String × α)) (k : String) : Option α :=
  (m.find? (fun p => p.1 == k)).map (fun p => p.2)

/-- Key-membership in an association list. -/
def hasKey {α : Type} (m : List (String × α)) (k : String) : Bool :=
  m.any (fun p => p.1 == k)

mutual

/-- Parse one JSON value; returns it with the unconsumed remainder. -/
def parseValue : Nat → List Char → Option (Json × List Char)
  | 0, _ => none
  | f + 1, l =>
    match l.dropWhile isWs with
    | '\x7b' :: rest =>
      match rest.dropWhile isWs with
      | '\x7d' :: r2 => some (.obj [], r2)
      | r1 => parseMembers f r1 []
    | '[' :: rest =>
      match rest.dropWhile isWs with
      | ']' :: r2 => some (.arr [], r2)
      | r1 => parseElems f r1 []
    | '"' :: rest =>
      match parseStringRest rest with
      | some (s, r) => some (.str (String.mk s), r)
      | none => none
    | 't' :: 'r' :: 'u' :: 'e' :: rest => some (.bool true, rest)
    | 'f' :: 'a' :: 'l' :: 's' :: 'e' :: rest => some (.bool false, rest)
    | 'n' :: 'u' :: 'l' :: 'l' :: rest => some (.null, rest)
    | c :: rest =>
      if c == '-' || c.isDigit then parseNumber (c :: rest) else none
    | [] => none

/-- Parse the members of a JSON object after the opening brace (non-empty
case), accumulating fields with last-value-wins duplicate handling. -/
def parseMembers : Nat → List Char → List (String × Json) →
    Option (Json × List Char)
  | 0, _, _ => none
  | f + 1, l, acc =>
    match l with
    | '"' :: rest =>
      match parseStringRest rest with
      | none => none
      | some (key, r1) =>
        match r1.dropWhile isWs with
        | ':' :: r2 =>
          match parseValue f r2 with
          | none => none
          | some (v, r3) =>
            let acc2 := setKey acc (String.mk key) v
            match r3.dropWhile isWs with
            | ',' :: r4 => parseMembers f (r4.dropWhile isWs) acc2
            | '\x7d' :: r4 => some (.obj acc2, r4)
            | _ => none
        | _ => none
    | _ => none

/-- Parse the elements of a JSON array after the opening bracket (non-empty
case). -/
def parseElems : Nat → List Char → List Json → Option (Json × List Char)
  | 0, _, _ => none
  | f + 1, l, acc =>
    match parseValue f l with
    | none => none
    | some (v, r) =>
      match r.dropWhile isWs with
      | ',' :: r2 => parseElems f r2 (acc ++ [v])
      | ']' :: r2 => some (.arr (acc ++ [v]), r2)
      | _ => none

end

/-- `JSON.parse`: parse the whole string, allowing trailing whitespace only. -/
def jsonParse (s : String) : Option Json :=
  match parseValue (s.length + 1) s.data with
  | some (v, rest) => if (rest.dropWhile isWs).isEmpty then some v else none
  | none => none

/-- `tryParseWithCleaning` (route.ts 358-399): the cleaning transformation
followed by `JSON.parse`; `none` models the thrown parse error. -/
def tryParseWithCleaning (text : String) : Option Json :=
  jsonParse (cleanText text)

/-! ## The domain model and the Normalizer (typed variant, route.ts 328-471) -/

/-- `ShoppingItem` (route.ts 328-331). -/
structure ShoppingItem where
  ingredient : String
  quantity : String
deriving DecidableEq

/-- `ShoppingList` (route.ts 333-335): a string-keyed mapping to item arrays,
modelled as an insertion-ordered association list with unique keys. -/
abbrev ShoppingList := List (String × List ShoppingItem)

/-- `createFallbackShoppingList` (route.ts 337-355). -/
def createFallbackShoppingList (recipeName : String) : ShoppingList :=
  [("Pantry/Dry Goods",
     [⟨"basic ingredients", "as needed"⟩,
      ⟨"Check recipe for \"" ++ recipeName ++ "\"", "as needed"⟩]),
   ("Produce", [⟨"fresh ingredients", "as needed"⟩]),
   ("Dairy", []),
   ("Meat & Seafood", []),
   ("Frozen Foods", []),
   ("Bakery", []),
   ("Canned Goods", []),
   ("Condiments & Sauces", []),
   ("Spices & Seasonings", []),
   ("Beverages", [])]

/-- The `aisleMapping` synonym table (route.ts 410-427), in source order. -/
def aisleMapping : List (String × String) :=
  [("produce", "Produce"),
   ("dairy", "Dairy"),
   ("meat_and_seafood", "Meat & Seafood"),
   ("meat & seafood", "Meat & Seafood"),
   ("pantry", "Pantry/Dry Goods"),
   ("pantry/dry goods", "Pantry/Dry Goods"),
   ("frozen", "Frozen Foods"),
   ("frozen foods", "Frozen Foods"),
   ("bakery", "Bakery"),
   ("canned", "Canned Goods"),
   ("canned goods", "Canned Goods"),
   ("condiments", "Condiments & Sauces"),
   ("condiments & sauces", "Condiments & Sauces"),
   ("spices", "Spices & Seasonings"),
   ("spices & seasonings", "Spices & Seasonings"),
   ("beverages", "Beverages")]

/-- The own entries of `aisleMapping[k]` (every value in the table is a
non-empty string).  This is only half of the JavaScript lookup: a miss here
continues into the object literal's prototype chain, below. -/
def aisleLookup (k : String) : Option String := lookupKey aisleMapping k

/-- The prototype-chain half of `aisleMapping[k]`: a plain object literal
inherits `Object.prototype`'s members.  The lookup key is always
`key.toLowerCase()`, and of those members only `constructor` and
`__proto__` are all-lowercase names (the rest — `hasOwnProperty`,
`toString`, `valueOf`, ... — contain uppercase letters and can never equal a
lowercased key), so they are the only reachable inherited hits.  Both values
are truthy, so the source's `|| key` fallback does not fire on them; their
only further use is as the property key of `normalized[normalizedKey] = ...`,
so what is recorded here is the string each coerces to there:
`constructor` is the `Object` function (Node/V8 renders it as the
NativeFunction string below) and reading `__proto__` yields
`Object.prototype` itself, an object. -/
def protoChainKeyString : String → Option String
  | "constructor" => some "function Object() \x7b [native code] \x7d"
  | "__proto__" => some "[object Object]"
  | _ => none

/-- The ten canonical aisle names (the distinct values of `aisleMapping`). -/
def canonicalAisles : List String :=
  ["Produce", "Dairy", "Meat & Seafood", "Pantry/Dry Goods", "Frozen Foods",
   "Bakery", "Canned Goods", "Condiments & Sauces", "Spices & Seasonings",
   "Beverages"]

/-- JavaScript `toLowerCase()` on ASCII, applied to aisle keys. -/
def jsToLower (s : String) : String := String.mk (s.data.map Char.toLower)

/-- `aisleMapping[key.toLowerCase()] || key`, followed by the use of the
result as a property key: an own table hit gives the canonical aisle; a
prototype-chain hit gives the coerced string of the inherited value (the
`|| key` fallback does not fire, the value being truthy); only when both
miss does the original key survive verbatim.  Note that the resulting key is
never the literal string `"__proto__"` (the chain hit intercepts it), so the
plain-assignment model of `setKey` is exact. -/
def normalizedKeyOf (key : String) : String :=
  match aisleLookup (jsToLower key) with
  | some canonical => canonical
  | none =>
    match protoChainKeyString (jsToLower key) with
    | some coerced => coerced
    | none => key

/-- `Object.keys(data)` paired with `data[key]`, for the values the guard
admits: an object's own fields in insertion order, an array's index keys with
their elements.  (The engine-level reordering of integer-like object keys is
not modelled; no claim depends on key order.) -/
def entriesOf : Json → List (String × Json)
  | .obj fields => fields
  | .arr l => l.enum.map (fun p => (toString p.1, p.2))
  | _ => []

/-- Route.ts 444-450: keep an array as is, flattening one level when its
first element is itself an array (`items.flat()`); any non-array value is
treated as the empty array. -/
def itemsArrayOf (v : Json) : List Json :=
  match v with
  | .arr [] => []
  | .arr (first :: rest) =>
    match first with
    | .arr _ => ((first :: rest).map (fun x =>
        match x with
        | .arr a => a
        | x => [x])).flatten
    | _ => first :: rest
  | _ => []

/-- The item coercion of the typed variant (route.ts 453-464): strings are
wrapped with quantity `"1"`; objects (and arrays, which `typeof` also calls
objects) read `ingredient`/`quantity` with defaults through `String(...)`;
everything else becomes the placeholder. -/
def normalizeItem (item : Json) : ShoppingItem :=
  match item with
  | .str s => ⟨s, "1"⟩
  | _ =>
    if item.isObjectLike then
      ⟨jsToString (truthyOrDefault (getProp item "ingredient") (.str "Unknown item")),
       jsToString (truthyOrDefault (getProp item "quantity") (.str "1"))⟩
    else ⟨"Unknown item", "1"⟩

/-- The canonical seeding (route.ts 429-434): every value of `aisleMapping`
is assigned an empty array. -/
def seededAisles : ShoppingList :=
  (aisleMapping.map (fun p => p.2)).foldl (fun acc a => setKey acc a []) []

/-- The per-key body of the `Object.keys(data).forEach` loop
(route.ts 437-468). -/
def normalizeEntry (acc : ShoppingList) (kv : String × Json) : ShoppingList :=
  let normalizedKey := normalizedKeyOf kv.1
  let normalizedItems :=
    ((itemsArrayOf kv.2).map normalizeItem).filter
      (fun it => it.ingredient != "Unknown item")
  setKey acc normalizedKey normalizedItems

/-- `normalizeShoppingList`, the typed second variant (route.ts 402-471).
The guard `!rawData || typeof rawData !== 'object'` admits exactly arrays and
objects (for `null`, `!rawData` fires; for booleans, numbers and strings,
the `typeof` test fires). -/
def normalizeShoppingList (rawData : Json) : ShoppingList :=
  if !rawData.isObjectLike then createFallbackShoppingList "unknown"
  else (entriesOf rawData).foldl normalizeEntry seededAisles

/-! ## The untyped first variant of the Normalizer (route.ts 68-125)

The untyped variant has no guard, performs no `String(...)` coercion on the
`ingredient` field (so a non-string ingredient value flows through), and
dereferences `item.ingredient` directly, which throws a `TypeError` when an
array element is `null` — and `Object.keys(rawData)` throws when `rawData`
is `null`.  Failure is modelled by `Option`. -/

/-- Items of the first variant: the ingredient is whatever value the input
held. -/
structure ShoppingItemV1 where
  ingredient : Json
  quantity : String

/-- Association list of first-variant items. -/
abbrev ShoppingListV1 := List (String × List ShoppingItemV1)

/-- `Object.keys` for the unguarded variant: strings enumerate their index
keys with one-character values, numbers and booleans have no own keys, and
`null` throws. -/
def entriesOfV1 : Json → Option (List (String × Json))
  | .null => none
  | .obj fields => some fields
  | .arr l => some (l.enum.map (fun p => (toString p.1, p.2)))
  | .str s => some (s.data.enum.map (fun p => (toString p.1, Json.str (String.mk [p.2]))))
  | _ => some []

/-- Item coercion of the first variant (route.ts 111-119): `none` models the
`TypeError` thrown by `item.ingredient` on a `null` element. -/
def normalizeItemV1 (item : Json) : Option ShoppingItemV1 :=
  match item with
  | .str s => some ⟨.str s, "1"⟩
  | .null => none
  | _ =>
    some ⟨truthyOrDefault (getProp item "ingredient") (.str "Unknown item"),
          jsToString (truthyOrDefault (getProp item "quantity") (.str "1"))⟩

/-- `item.ingredient !== 'Unknown item'`: strict inequality between the raw
ingredient value and the sentinel string. -/
def isUnknownSentinel : Json → Bool
  | .str s => s == "Unknown item"
  | _ => false

/-- The canonical seeding of the first variant (route.ts 90-93); the synonym
table is the same. -/
def seededAislesV1 : ShoppingListV1 :=
  (aisleMapping.map (fun p => p.2)).foldl (fun acc a => setKey acc a []) []

/-- The first variant's `items.map(...)` (route.ts 111-118): the thrown
`TypeError` of any element propagates out of the whole map. -/
def mapItemsV1 : List Json → Option (List ShoppingItemV1)
  | [] => some []
  | x :: xs =>
    match normalizeItemV1 x with
    | none => none
    | some it =>
      match mapItemsV1 xs with
      | none => none
      | some rest => some (it :: rest)

/-- The first variant's `Object.keys(rawData).forEach` loop (route.ts
96-122), with exception propagation. -/
def foldEntriesV1 : List (String × Json) → ShoppingListV1 → Option ShoppingListV1
  | [], acc => some acc
  | kv :: rest, acc =>
    match mapItemsV1 (itemsArrayOf kv.2) with
    | none => none
    | some items =>
      foldEntriesV1 rest
        (setKey acc (normalizedKeyOf kv.1)
          (items.filter (fun it => !isUnknownSentinel it.ingredient)))

/-- `normalizeShoppingList`, the untyped first variant (route.ts 68-125). -/
def normalizeShoppingListV1 (rawData : Json) : Option ShoppingListV1 :=
  match entriesOfV1 rawData with
  | none => none
  | some entries => foldEntriesV1 entries seededAislesV1

/-! ## The Generation Orchestrator (`POST`, route.ts 473-664)

The upstream client is injected as a function from the call number to the
call's outcome (`none` = the call threw; `some t` = it returned text `t`).
Calls are numbered in program order: 1-3 the stage-1 attempts, 4 the
cleanup call, 5 the reliable-model call. -/

/-- `Object.values(list).some(items => Array.isArray(items) &&
items.length > 0)` (route.ts 527-529): every value of a `ShoppingList` is an
array, so the check is non-emptiness of some value. -/
def hasValidItems (m : ShoppingList) : Bool :=
  m.any (fun p => !p.2.isEmpty)

/-- The generation temperature of stage-1 attempt `attempt`
(route.ts 508: `attempt === 1 ? 0.1 : 0.3`). -/
def stageOneTemperature (attempt : Nat) : ℚ :=
  if attempt = 1 then 1 / 10 else 3 / 10

/-- The result envelope returned by `POST` on its non-error paths.
`responseTime` (wall-clock) and the `parseError` message (engine-specific)
are not modelled; fields absent from a given return site are `none`. -/
structure GenerationResult where
  organizedIngredients : ShoppingList
  modelUsed : String
  totalAttempts : Option Nat
  warning : Option String
  rawResponse : Option String
deriving DecidableEq

/-- The `POST` handler's response: a JSON payload, a 400 client error
(missing recipe name), or the 500 error of the outer catch. -/
inductive PostResponse where
  | ok (result : GenerationResult) : PostResponse
  | clientError (message : String) : PostResponse
  | serverError (message : String) : PostResponse
deriving DecidableEq

/-- One stage-1 attempt (route.ts 499-549): parse the trimmed response with
cleaning, require an object, normalize, require at least one non-empty aisle;
`none` models the caught attempt failure. -/
def stageOneAttempt (attempt : Nat) (response : Option String) :
    Option GenerationResult :=
  match response with
  | none => none
  | some text =>
    let generatedText := jsTrim text
    match tryParseWithCleaning generatedText with
    | none => none
    | some parsedData =>
      if parsedData.isObjectLike then
        let organizedIngredients := normalizeShoppingList parsedData
        if hasValidItems organizedIngredients then
          some { organizedIngredients := organizedIngredients,
                 modelUsed := "command-light (attempt " ++ toString attempt ++ ")",
                 totalAttempts := some attempt,
                 warning := none,
                 rawResponse := none }
        else none
      else none

/-- The stage-2 cleanup call (route.ts 551-607): the same
parse/validate/normalize pipeline on the cleanup response; note that the
success return (route.ts 593-598) carries no `warning` field. -/
def stageTwoCleanup (response : Option String) : Option GenerationResult :=
  match response with
  | none => none
  | some text =>
    let cleanedText := jsTrim text
    match tryParseWithCleaning cleanedText with
    | none => none
    | some parsedData =>
      if parsedData.isObjectLike then
        let organizedIngredients := normalizeShoppingList parsedData
        if hasValidItems organizedIngredients then
          some { organizedIngredients := organizedIngredients,
                 modelUsed := "command-light (cleanup)",
                 totalAttempts := some 4,
                 warning := none,
                 rawResponse := none }
        else none
      else none

/-- The final-fallback return (route.ts 646-654). -/
def fallbackResponse (recipeName generatedText : String) : PostResponse :=
  .ok { organizedIngredients := createFallbackShoppingList recipeName,
        modelUsed := "fallback",
        totalAttempts := none,
        warning := some "Both AI models failed. Using basic shopping list.",
        rawResponse := some generatedText }

/-- Stage 3 (route.ts 609-655).  The reliable-model call itself is outside
any inner try, so a thrown transport error reaches the outer catch
(route.ts 657-663) and produces the 500 error response; only a response text
that fails `JSON.parse` (or parses to a non-object) takes the inner catch to
the static fallback. -/
def stageThreeReliable (response : Option String) (recipeName : String) :
    PostResponse :=
  match response with
  | none => .serverError "Failed to generate shopping list"
  | some text =>
    let generatedText := jsTrim text
    match jsonParse generatedText with
    | some parsedData =>
      if parsedData.isObjectLike then
        .ok { organizedIngredients := normalizeShoppingList parsedData,
              modelUsed := "command-r-plus",
              totalAttempts := none,
              warning := some "Used slower but more reliable model due to fast model parsing issues.",
              rawResponse := none }
      else fallbackResponse recipeName generatedText
    | none => fallbackResponse recipeName generatedText

/-- The `POST` orchestrator (route.ts 473-664): reject an empty recipe name,
then try stage-1 attempts 1-3, the stage-2 cleanup, and stage 3, short-
circuiting on the first success. -/
def generate (client : Nat → Option String) (recipeName : String) :
    PostResponse :=
  if recipeName = "" then .clientError "Recipe name is required"
  else
    match stageOneAttempt 1 (client 1) with
    | some r => .ok r
    | none =>
      match stageOneAttempt 2 (client 2) with
      | some r => .ok r
      | none =>
        match stageOneAttempt 3 (client 3) with
        | some r => .ok r
        | none =>
          match stageTwoCleanup (client 4) with
          | some r => .ok r
          | none => stageThreeReliable (client 5) recipeName

/-! ## Auxiliary definitions for the statements -/

/-- The keys of the input value, as enumerated by `Object.keys`. -/
def inputKeys (v : Json) : List String := (entriesOf v).map (fun p => p.1)

/-- Embeds a typed item into the untyped first variant's item type. -/
def embedItem (it : ShoppingItem) : ShoppingItemV1 :=
  ⟨.str it.ingredient, it.quantity⟩

/-- Embeds a typed `ShoppingList` into the first variant's representation. -/
def embedSL (m : ShoppingList) : ShoppingListV1 :=
  m.map (fun p => (p.1, p.2.map embedItem))

/-- Items on which the two Normalizer variants coincide: anything except a
`null` element (on which the untyped variant throws) and an object whose
`ingredient` field holds a truthy non-string value (which the untyped
variant passes through raw while the typed one stringifies). -/
def tameItem (item : Json) : Bool :=
  match item with
  | .null => false
  | .obj _ =>
    match getProp item "ingredient" with
    | none => true
    | some v => jsFalsy v || (match v with | .str _ => true | _ => false)
  | _ => true

/-- A client whose every call throws (a transport/provider failure). -/
def clientAllTransportFail : Nat → Option String := fun _ => none

/-- A client whose every call returns unparsable prose. -/
def clientAllGarbage : Nat → Option String :=
  fun _ => some "I cannot help with that"

/-- A client that fails the three stage-1 calls and answers the stage-2
cleanup call with a well-formed shopping-list object. -/
def clientCleanupSucceeds : Nat → Option String :=
  fun i => if i = 4 then some "\x7b\"Produce\": [\"eggs\"]\x7d" else none

/-- A client that fails the first four calls and answers the reliable-model
call with an empty JSON object. -/
def clientReliableEmptyObject : Nat → Option String :=
  fun i => if i = 5 then some "\x7b\x7d" else none

/-- A client that fails the first four calls and answers the reliable-model
call with garbage. -/
def clientReliableGarbage : Nat → Option String :=
  fun i => if i = 5 then some "nonsense" else none

/-- The all-empty canonical list, for the statements below. -/
def emptyCanonicalList : ShoppingList :=
  canonicalAisles.map (fun a => (a, []))

/-- The `GenerationResult` of a stage-2 cleanup success on
`clientCleanupSucceeds`. -/
def cleanupEggsResult : GenerationResult :=
  { organizedIngredients :=
      [("Produce", [⟨"eggs", "1"⟩]), ("Dairy", []), ("Meat & Seafood", []),
       ("Pantry/Dry Goods", []), ("Frozen Foods", []), ("Bakery", []),
       ("Canned Goods", []), ("Condiments & Sauces", []),
       ("Spices & Seasonings", []), ("Beverages", [])],
    modelUsed := "command-light (cleanup)",
    totalAttempts := some 4,
    warning := none,
    rawResponse := none }

/-- The `GenerationResult` of a stage-3 success on an empty JSON object. -/
def reliableEmptyResult : GenerationResult :=
  { organizedIngredients := emptyCanonicalList,
    modelUsed := "command-r-plus",
    totalAttempts := none,
    warning := some "Used slower but more reliable model due to fast model parsing issues.",
    rawResponse := none }

/-! ## Shared lemmas about the association-list operations -/

theorem hasKey_map_update {α : Type} (m : List (String × α)) (k : String) (v : α)
    (k' : String) :
    hasKey (m.map (fun p => if p.1 == k then (p.1, v) else p)) k' = hasKey m k' := by
  unfold hasKey
  rw [List.any_map]
  congr 1
  funext p
  by_cases hp : p.1 == k <;> simp [Function.comp, hp]

theorem hasKey_append_single {α : Type} (m : List (String × α)) (k : String)
    (v : α) (k' : String) :
    hasKey (m ++ [(k, v)]) k' = (hasKey m k' || (k == k')) := by
  unfold hasKey
  rw [List.any_append]
  simp [List.any_cons]

theorem setKey_hasKey_iff {α : Type} (m : List (String × α)) (k : String) (v : α)
    (k' : String) :
    hasKey (setKey m k v) k' = true ↔ (hasKey m k' = true ∨ k' = k) := by
  unfold setKey
  by_cases hm : m.any (fun p => p.1 == k) = true
  · rw [if_pos hm, hasKey_map_update]
    constructor
    · exact Or.inl
    · rintro (h | rfl)
      · exact h
      · exact hm
  · rw [if_neg hm, hasKey_append_single]
    simp only [Bool.or_eq_true, beq_iff_eq]
    constructor
    · rintro (h | h)
      · exact Or.inl h
      · exact Or.inr h.symm
    · rintro (h | h)
      · exact Or.inl h
      · exact Or.inr h.symm

theorem lookupKey_cons {α : Type} (q : String × α) (t : List (String × α))
    (k' : String) :
    lookupKey (q :: t) k' = if q.1 == k' then some q.2 else lookupKey t k' := by
  by_cases h : q.1 == k'
  · simp [lookupKey, List.find?_cons_of_pos _ h, h]
  · simp [lookupKey, List.find?_cons_of_neg _ h, h]

theorem lookupKey_map_update {α : Type} (m : List (String × α)) (k : String)
    (v : α) (k' : String) (w : α)
    (h : lookupKey (m.map (fun p => if p.1 == k then (p.1, v) else p)) k' = some w) :
    w = v ∨ lookupKey m k' = some w := by
  induction m with
  | nil => simp [lookupKey] at h
  | cons q t ih =>
    rw [List.map_cons] at h
    by_cases hq : (q.1 == k) = true
    · rw [if_pos hq, lookupKey_cons] at h
      dsimp only at h
      by_cases hk' : (q.1 == k') = true
      · rw [if_pos hk'] at h
        exact Or.inl (Option.some.inj h).symm
      · rw [if_neg hk'] at h
        rcases ih h with h1 | h1
        · exact Or.inl h1
        · right
          rw [lookupKey_cons, if_neg hk']
          exact h1
    · rw [if_neg hq, lookupKey_cons] at h
      by_cases hk' : (q.1 == k') = true
      · rw [if_pos hk'] at h
        right
        rw [lookupKey_cons, if_pos hk']
        exact h
      · rw [if_neg hk'] at h
        rcases ih h with h1 | h1
        · exact Or.inl h1
        · right
          rw [lookupKey_cons, if_neg hk']
          exact h1

theorem lookupKey_append_single {α : Type} (m : List (String × α)) (k : String)
    (v : α) (k' : String) (w : α)
    (h : lookupKey (m ++ [(k, v)]) k' = some w) :
    w = v ∨ lookupKey m k' = some w := by
  induction m with
  | nil =>
    rw [List.nil_append, lookupKey_cons] at h
    by_cases hk : k == k'
    · simp only [hk, if_true] at h
      exact Or.inl (Option.some.inj h).symm
    · simp only [hk, if_false, lookupKey, List.find?] at h
      exact absurd h (by simp)
  | cons q t ih =>
    rw [List.cons_append, lookupKey_cons] at h
    rw [lookupKey_cons]
    by_cases hk' : q.1 == k'
    · simp only [hk', if_true] at h ⊢
      exact Or.inr h
    · simp only [hk', if_false] at h ⊢
      exact ih h

theorem setKey_lookupKey_elim {α : Type} (m : List (String × α)) (k : String)
    (v : α) (k' : String) (w : α)
    (h : lookupKey (setKey m k v) k' = some w) :
    w = v ∨ lookupKey m k' = some w := by
  unfold setKey at h
  by_cases hm : m.any (fun p => p.1 == k) = true
  · rw [if_pos hm] at h
    exact lookupKey_map_update m k v k' w h
  · rw [if_neg hm] at h
    exact lookupKey_append_single m k v k' w h

theorem hasKey_mem_keys {α : Type} (m : List (String × α)) (k : String)
    (h : hasKey m k = true) : k ∈ m.map (fun p => p.1) := by
  induction m with
  | nil => simp [hasKey] at h
  | cons q t ih =>
    simp only [hasKey, List.any_cons, Bool.or_eq_true, beq_iff_eq] at h
    rcases h with h | h
    · simp [h]
    · simp [ih h]

theorem lookupKey_mem_values {α : Type} (m : List (String × α)) (k : String)
    (w : α) (h : lookupKey m k = some w) : w ∈ m.map (fun p => p.2) := by
  induction m with
  | nil => simp [lookupKey] at h
  | cons q t ih =>
    rw [lookupKey_cons] at h
    by_cases hk : (q.1 == k) = true
    · rw [if_pos hk] at h
      simp [← Option.some.inj h]
    · rw [if_neg hk] at h
      simp [ih h]

/-! ## Reductions of the Normalizer's guard -/

theorem normalizeShoppingList_objectLike (v : Json) (hv : v.isObjectLike = true) :
    normalizeShoppingList v = (entriesOf v).foldl normalizeEntry seededAisles := by
  unfold normalizeShoppingList
  rw [hv]
  rfl

theorem normalizeShoppingList_not_objectLike (v : Json)
    (hv : v.isObjectLike = false) :
    normalizeShoppingList v = createFallbackShoppingList "unknown" := by
  unfold normalizeShoppingList
  rw [hv]
  rfl

/-! ## Invariants of the Normalizer's key loop -/

theorem foldl_normalizeEntry_hasKey (entries : List (String × Json)) :
    ∀ acc k, hasKey acc k = true →
      hasKey (entries.foldl normalizeEntry acc) k = true := by
  induction entries with
  | nil => exact fun _ _ h => h
  | cons kv t ih =>
    intro acc k h
    rw [List.foldl_cons]
    apply ih
    simp only [normalizeEntry]
    exact (setKey_hasKey_iff _ _ _ _).mpr (Or.inl h)

theorem foldl_normalizeEntry_hasKey_elim (entries : List (String × Json)) :
    ∀ acc k, hasKey (entries.foldl normalizeEntry acc) k = true →
      hasKey acc k = true ∨
        ∃ kv, kv ∈ entries ∧ k = normalizedKeyOf kv.1 := by
  induction entries with
  | nil => exact fun _ _ h => Or.inl h
  | cons kv t ih =>
    intro acc k h
    rw [List.foldl_cons] at h
    rcases ih _ _ h with h1 | ⟨kv', hm, he⟩
    · simp only [normalizeEntry] at h1
      rcases (setKey_hasKey_iff _ _ _ _).mp h1 with h2 | rfl
      · exact Or.inl h2
      · exact Or.inr ⟨kv, List.mem_cons_self kv t, rfl⟩
    · exact Or.inr ⟨kv', List.mem_cons_of_mem kv hm, he⟩

theorem foldl_normalizeEntry_values (entries : List (String × Json)) :
    ∀ acc,
      (∀ k its, lookupKey acc k = some its →
        ∀ it ∈ its, it.ingredient ≠ "Unknown item") →
      ∀ k its, lookupKey (entries.foldl normalizeEntry acc) k = some its →
        ∀ it ∈ its, it.ingredient ≠ "Unknown item" := by
  induction entries with
  | nil => exact fun _ h => h
  | cons kv t ih =>
    intro acc hacc k its h
    rw [List.foldl_cons] at h
    refine ih _ ?_ k its h
    intro k' its' h' it hit
    simp only [normalizeEntry] at h'
    rcases setKey_lookupKey_elim _ _ _ _ _ h' with rfl | h2
    · have hfilter := List.of_mem_filter hit
      simpa using hfilter
    · exact hacc _ _ h2 it hit

/-- C2 counterexample: an input key whose lowercasing is `constructor` hits
the inherited `Object.prototype.constructor` through the synonym table's
prototype chain; the truthy hit suppresses the `|| key` fallback, and the
output gains the property-key coercion of the `Object` function — a key that
is neither canonical nor present in the input, while the input's own key
`constructor` does not appear. -/
theorem normalize_prototype_key_counterexample :
    hasKey (normalizeShoppingList
        (Json.obj [("constructor", Json.arr [Json.str "milk"])]))
      "function Object() \x7b [native code] \x7d" = true ∧
    "function Object() \x7b [native code] \x7d" ∉ canonicalAisles ∧
    "function Object() \x7b [native code] \x7d"
      ∉ inputKeys (Json.obj [("constructor", Json.arr [Json.str "milk"])]) ∧
    hasKey (normalizeShoppingList
        (Json.obj [("constructor", Json.arr [Json.str "milk"])]))
      "constructor" = false := by
  exact ⟨by decide, by decide, by decide, by decide⟩

/-- C2 (amended): for every input value, the Normalizer's output contains
all ten canonical aisle keys (ten distinct names — never fewer), and every
further key arises from an input key as either (a) that key verbatim, when
its lowercasing is neither an aisle synonym nor an inherited
`Object.prototype` member name, or (b) the property-key coercion of the
inherited member the lowercased key names (`constructor`/`__proto__`), a
key not present in the input. -/
theorem normalize_canonical_completeness_amended (v : Json) :
    canonicalAisles.length = 10 ∧ canonicalAisles.Nodup ∧
    (∀ a ∈ canonicalAisles, hasKey (normalizeShoppingList v) a = true) ∧
    (∀ k, hasKey (normalizeShoppingList v) k = true →
      k ∈ canonicalAisles ∨
        ∃ k0, k0 ∈ inputKeys v ∧ aisleLookup (jsToLower k0) = none ∧
          ((protoChainKeyString (jsToLower k0) = none ∧ k = k0) ∨
           (∃ s, protoChainKeyString (jsToLower k0) = some s ∧ k = s))) := by
  refine ⟨by decide, by decide, ?_, ?_⟩
  · intro a ha
    by_cases hv : v.isObjectLike = true
    · rw [normalizeShoppingList_objectLike v hv]
      exact foldl_normalizeEntry_hasKey _ _ _
        ((by decide : ∀ a ∈ canonicalAisles, hasKey seededAisles a = true) a ha)
    · rw [normalizeShoppingList_not_objectLike v (Bool.eq_false_iff.mpr hv)]
      exact (by decide :
        ∀ a ∈ canonicalAisles,
          hasKey (createFallbackShoppingList "unknown") a = true) a ha
  · intro k hk
    by_cases hv : v.isObjectLike = true
    · rw [normalizeShoppingList_objectLike v hv] at hk
      rcases foldl_normalizeEntry_hasKey_elim _ _ _ hk with h1 | ⟨kv, hm, rfl⟩
      · left
        have h2 := hasKey_mem_keys _ _ h1
        rwa [(by decide : seededAisles.map (fun p => p.1) = canonicalAisles)] at h2
      · unfold normalizedKeyOf
        cases ha : aisleLookup (jsToLower kv.1) with
        | some c =>
          left
          have hmem := lookupKey_mem_values aisleMapping (jsToLower kv.1) c ha
          exact (by decide :
            ∀ x ∈ aisleMapping.map (fun p => p.2), x ∈ canonicalAisles) c hmem
        | none =>
          cases hp : protoChainKeyString (jsToLower kv.1) with
          | some s =>
            right
            exact ⟨kv.1, List.mem_map_of_mem _ hm, ha, Or.inr ⟨s, hp, rfl⟩⟩
          | none =>
            right
            exact ⟨kv.1, List.mem_map_of_mem _ hm, ha, Or.inl ⟨hp, rfl⟩⟩
    · rw [normalizeShoppingList_not_objectLike v (Bool.eq_false_iff.mpr hv)] at hk
      left
      have h2 := hasKey_mem_keys _ _ hk
      exact (by decide :
        ∀ x ∈ (createFallbackShoppingList "unknown").map (fun p => p.1),
          x ∈ canonicalAisles) k h2

/-- C2 witness: a concrete instance of the amended completeness. -/
theorem normalize_canonical_completeness_amended_witness :
    hasKey (normalizeShoppingList
      (Json.obj [("dairy", Json.arr [Json.str "milk"])])) "Produce" = true :=
  (normalize_canonical_completeness_amended
    (Json.obj [("dairy", Json.arr [Json.str "milk"])])).2.2.1 "Produce" (by decide)

/-- C6: no ingredient in any Normalizer output is the placeholder
`"Unknown item"`. -/
theorem normalize_no_unknown_item (v : Json) (k : String)
    (its : List ShoppingItem)
    (h : lookupKey (normalizeShoppingList v) k = some its) :
    ∀ it ∈ its, it.ingredient ≠ "Unknown item" := by
  by_cases hv : v.isObjectLike = true
  · rw [normalizeShoppingList_objectLike v hv] at h
    refine foldl_normalizeEntry_values _ _ ?_ k its h
    intro k' its' h' it hit
    have h2 := lookupKey_mem_values _ _ _ h'
    exact (by decide :
      ∀ its ∈ seededAisles.map (fun p => p.2),
        ∀ it ∈ its, it.ingredient ≠ "Unknown item") its' h2 it hit
  · rw [normalizeShoppingList_not_objectLike v (Bool.eq_false_iff.mpr hv)] at h
    have h2 := lookupKey_mem_values _ _ _ h
    exact (by decide :
      ∀ its ∈ (createFallbackShoppingList "unknown").map (fun p => p.2),
        ∀ it ∈ its, it.ingredient ≠ "Unknown item") its h2

/-- C6 witness: a concrete instance of the no-placeholder property. -/
theorem normalize_no_unknown_item_witness :
    (⟨"eggs", "1"⟩ : ShoppingItem).ingredient ≠ "Unknown item" :=
  normalize_no_unknown_item (Json.obj [("Produce", Json.arr [Json.str "eggs"])])
    "Produce" [⟨"eggs", "1"⟩] (by decide) ⟨"eggs", "1"⟩ (by decide)

/-- C4 counterexample: on `null` (not a non-null object) the typed
`normalizeShoppingList` returns `createFallbackShoppingList "unknown"`, whose
`Pantry/Dry Goods` aisle is not empty — not the all-empty canonical list the
claim describes. -/
theorem normalize_nonobject_counterexample :
    normalizeShoppingList Json.null = createFallbackShoppingList "unknown" ∧
    lookupKey (normalizeShoppingList Json.null) "Pantry/Dry Goods" ≠ some [] := by
  exact ⟨by decide, by decide⟩

/-- C4 (amended): every input that is not a non-null object yields
`createFallbackShoppingList "unknown"` — all ten canonical keys, with
placeholder items under `Pantry/Dry Goods` and `Produce`. -/
theorem normalize_nonobject_returns_fallback (v : Json)
    (hv : v.isObjectLike = false) :
    normalizeShoppingList v = createFallbackShoppingList "unknown" := by
  unfold normalizeShoppingList
  rw [hv]
  rfl

/-- C4 witness: the amended claim at the number `7`. -/
theorem normalize_nonobject_returns_fallback_witness :
    normalizeShoppingList (Json.num 7) = createFallbackShoppingList "unknown" :=
  normalize_nonobject_returns_fallback (Json.num 7) (by decide)

/-- C7 counterexample: the cleaning transformation is not idempotent — the
trailing-comma pass removes only one comma of a run per application. -/
theorem clean_not_idempotent :
    cleanText "\x7b,,\x7d" = "\x7b,\x7d" ∧
    cleanText (cleanText "\x7b,,\x7d") = "\x7b\x7d" ∧
    cleanText (cleanText "\x7b,,\x7d") ≠ cleanText "\x7b,,\x7d" := by
  exact ⟨by decide, by decide, by decide⟩

/-! Lemmas for the comma-collapsing step. -/

theorem goFixMultipleCommas_nil (f : Nat) : goFixMultipleCommas f [] = [] := by
  cases f <;> rfl

theorem length_dropWhile_le' {α : Type} (p : α → Bool) (l : List α) :
    (l.dropWhile p).length ≤ l.length := by
  induction l with
  | nil => simp
  | cons a t ih =>
    rw [List.dropWhile_cons]
    by_cases hp : p a = true
    · rw [if_pos hp]
      exact le_trans ih (Nat.le_succ _)
    · rw [if_neg hp]

theorem goFixMultipleCommas_cons (f : Nat) (c : Char) (rest : List Char) :
    goFixMultipleCommas (f + 1) (c :: rest) =
      c :: (if c == ',' then
              goFixMultipleCommas f (rest.dropWhile (fun d => d == ','))
            else goFixMultipleCommas f rest) := by
  by_cases h : (c == ',') = true
  · have hc : c = ',' := by simpa using h
    subst hc
    simp [goFixMultipleCommas]
  · simp [goFixMultipleCommas, h]

theorem dropWhile_head_false {α : Type} (p : α → Bool) (l : List α) (e : α)
    (r : List α) (h : l.dropWhile p = e :: r) : p e = false := by
  induction l with
  | nil => simp at h
  | cons a t ih =>
    rw [List.dropWhile_cons] at h
    by_cases hp : p a = true
    · rw [if_pos hp] at h
      exact ih h
    · rw [if_neg hp] at h
      cases h
      exact Bool.eq_false_iff.mpr hp

theorem noDoubleComma_goFixMultipleCommas :
    ∀ f l, l.length ≤ f → noDoubleComma (goFixMultipleCommas f l) = true := by
  intro f
  induction f with
  | zero =>
    intro l hl
    have : l = [] := List.eq_nil_of_length_eq_zero (Nat.le_zero.mp hl)
    subst this
    rfl
  | succ f ih =>
    intro l hl
    match l with
    | [] => rfl
    | c :: rest =>
      rw [goFixMultipleCommas_cons]
      have hlrest : rest.length ≤ f := by simpa using hl
      by_cases hc : (c == ',') = true
      · rw [if_pos hc]
        have hlen : (rest.dropWhile (fun d => d == ',')).length ≤ f :=
          le_trans (length_dropWhile_le' _ _) hlrest
        have hnd := ih _ hlen
        cases hgo : goFixMultipleCommas f (rest.dropWhile (fun d => d == ',')) with
        | nil => rfl
        | cons d t =>
          rw [hgo] at hnd
          have hd : (d == ',') = false := by
            cases hrest : rest.dropWhile (fun d => d == ',') with
            | nil =>
              rw [hrest, goFixMultipleCommas_nil] at hgo
              exact absurd hgo (by simp)
            | cons e r =>
              have he := dropWhile_head_false _ _ _ _ hrest
              rw [hrest] at hgo hlen
              match f, hlen with
              | f' + 1, _ =>
                rw [goFixMultipleCommas_cons] at hgo
                have : d = e := (List.cons.inj hgo).1.symm
                rw [this]
                exact he
          simp [noDoubleComma, hd, hnd]
      · rw [if_neg hc]
        have hnd := ih _ hlrest
        cases hgo : goFixMultipleCommas f rest with
        | nil => rfl
        | cons d t =>
          rw [hgo] at hnd
          have hcf : (c == ',') = false := Bool.eq_false_iff.mpr hc
          simp [noDoubleComma, hcf, hnd]

theorem noDoubleComma_tail (a : Char) (l : List Char)
    (h : noDoubleComma (a :: l) = true) : noDoubleComma l = true := by
  cases l with
  | nil => rfl
  | cons b t =>
    have : (!(a == ',' && b == ',') && noDoubleComma (b :: t)) = true := h
    exact (Bool.and_eq_true_iff.mp this).2

theorem goFixMultipleCommas_of_noDouble :
    ∀ f l, l.length ≤ f → noDoubleComma l = true →
      goFixMultipleCommas f l = l := by
  intro f
  induction f with
  | zero =>
    intro l hl _
    have : l = [] := List.eq_nil_of_length_eq_zero (Nat.le_zero.mp hl)
    subst this
    rfl
  | succ f ih =>
    intro l hl hnd
    match l with
    | [] => rfl
    | c :: rest =>
      rw [goFixMultipleCommas_cons]
      have hlrest : rest.length ≤ f := by simpa using hl
      by_cases hc : (c == ',') = true
      · rw [if_pos hc]
        have hdrop : rest.dropWhile (fun d => d == ',') = rest := by
          cases rest with
          | nil => rfl
          | cons d t =>
            have hpair : (!(c == ',' && d == ',') && noDoubleComma (d :: t)) = true := hnd
            have hd : (d == ',') = false := by
              rcases Bool.and_eq_true_iff.mp hpair with ⟨h1, _⟩
              cases hdc : (d == ',') with
              | false => rfl
              | true =>
                rw [hc, hdc] at h1
                exact absurd h1 (by decide)
            rw [List.dropWhile_cons, hd]
            rfl
        rw [hdrop, ih rest hlrest (noDoubleComma_tail c rest hnd)]
      · rw [if_neg hc, ih rest hlrest (noDoubleComma_tail c rest hnd)]

/-- C7 (amended): the composite cleaning transformation is not idempotent
(see the counterexample), but its final normalization step — the collapse of
comma runs — is: applying it twice equals applying it once, for every
character list. -/
theorem fixMultipleCommas_idempotent (l : List Char) :
    fixMultipleCommas (fixMultipleCommas l) = fixMultipleCommas l := by
  unfold fixMultipleCommas
  exact goFixMultipleCommas_of_noDouble _ _ (le_refl _)
    (noDoubleComma_goFixMultipleCommas _ _ (le_refl _))

/-- C8 counterexample: the stage-1 temperature schedule is not strictly
increasing across the three attempts — attempts 2 and 3 both use 0.3. -/
theorem temperature_not_strictly_increasing :
    ¬(stageOneTemperature 1 < stageOneTemperature 2 ∧
      stageOneTemperature 2 < stageOneTemperature 3) := by
  intro h
  have h2 := h.2
  norm_num [stageOneTemperature] at h2

/-- C8 (amended): the temperature rises from 0.1 on attempt 1 to 0.3 on
attempt 2, and stays at 0.3 on attempt 3 — non-decreasing, with a strict
increase only between attempts 1 and 2. -/
theorem temperature_schedule :
    stageOneTemperature 1 < stageOneTemperature 2 ∧
    stageOneTemperature 2 = stageOneTemperature 3 := by
  constructor <;> norm_num [stageOneTemperature]

/-- C9 counterexample: string elements are wrapped verbatim — `" eggs "`
keeps its surrounding whitespace and the empty string is kept as an empty
ingredient, so ingredients are neither trimmed nor non-empty. -/
theorem normalize_untrimmed_counterexample :
    lookupKey (normalizeShoppingList
        (Json.obj [("Produce", Json.arr [Json.str " eggs ", Json.str ""])]))
      "Produce" = some [⟨" eggs ", "1"⟩, ⟨"", "1"⟩] ∧
    jsTrim " eggs " ≠ " eggs " ∧
    (⟨"", "1"⟩ : ShoppingItem).ingredient = "" := by
  exact ⟨by decide, by decide, rfl⟩

/-- C9 (amended): a string element passes through the Normalizer verbatim —
with quantity `"1"`, and with no trimming or non-emptiness enforcement on
the ingredient; only the `"Unknown item"` sentinel is dropped. -/
theorem normalize_string_item_verbatim (s : String) (hs : s ≠ "Unknown item") :
    lookupKey (normalizeShoppingList
        (Json.obj [("Produce", Json.arr [Json.str s])])) "Produce"
      = some [⟨s, "1"⟩] := by
  have hbne : (s != "Unknown item") = true := bne_iff_ne.mpr hs
  have hfilter : List.filter (fun it : ShoppingItem =>
      it.ingredient != "Unknown item") [⟨s, "1"⟩] = [⟨s, "1"⟩] := by
    simp [List.filter, hbne]
  have h1 : lookupKey (normalizeShoppingList
      (Json.obj [("Produce", Json.arr [Json.str s])])) "Produce"
      = lookupKey (setKey seededAisles "Produce"
          (List.filter (fun it : ShoppingItem =>
            it.ingredient != "Unknown item") [⟨s, "1"⟩])) "Produce" := rfl
  rw [h1, hfilter]
  rfl

/-- C9 witness: the amended claim at the string `"butter"`. -/
theorem normalize_string_item_verbatim_witness :
    lookupKey (normalizeShoppingList
        (Json.obj [("Produce", Json.arr [Json.str "butter"])])) "Produce"
      = some [⟨"butter", "1"⟩] :=
  normalize_string_item_verbatim "butter" (by decide)

/-- C1 counterexample: when every upstream call (including the Stage-3
reliable-model call) throws, `generate` surfaces the outer catch's 500 error
response — not a `GenerationResult` with the static fallback. -/
theorem stage3_transport_error_counterexample :
    generate clientAllTransportFail "Pasta"
      = PostResponse.serverError "Failed to generate shopping list" := by
  decide

/-- C1 (amended): when stages 1 and 2 fail and the Stage-3 call itself fails
with a transport error, `generate` returns the 500 error response of the
outer catch, not the static fallback; the static fallback with a warning is
produced only when the Stage-3 call returns text that fails to parse. -/
theorem stage3_transport_vs_parse_failure (client : Nat → Option String)
    (recipeName : String) (hname : recipeName ≠ "")
    (h1 : client 1 = none) (h2 : client 2 = none) (h3 : client 3 = none)
    (h4 : client 4 = none) :
    (client 5 = none →
      generate client recipeName
        = PostResponse.serverError "Failed to generate shopping list") ∧
    (∀ t, client 5 = some t → jsonParse (jsTrim t) = none →
      generate client recipeName = fallbackResponse recipeName (jsTrim t)) := by
  unfold generate
  rw [if_neg hname, h1, h2, h3, h4]
  constructor
  · intro h5
    rw [h5]
    rfl
  · intro t ht hparse
    rw [ht]
    simp only [stageOneAttempt, stageTwoCleanup, stageThreeReliable, hparse]

/-- C1 witness: the amended claim at concrete clients. -/
theorem stage3_transport_vs_parse_failure_witness :
    generate clientAllTransportFail "Soup"
      = PostResponse.serverError "Failed to generate shopping list" ∧
    generate clientReliableGarbage "Soup"
      = fallbackResponse "Soup" (jsTrim "nonsense") :=
  ⟨(stage3_transport_vs_parse_failure clientAllTransportFail "Soup" (by decide)
      rfl rfl rfl rfl).1 rfl,
   (stage3_transport_vs_parse_failure clientReliableGarbage "Soup" (by decide)
      rfl rfl rfl rfl).2 "nonsense" rfl rfl⟩

/-! ## Field shapes of the stage results -/

theorem stageOneAttempt_success_fields (attempt : Nat) (resp : Option String)
    (r : GenerationResult) (h : stageOneAttempt attempt resp = some r) :
    r.warning = none ∧
    r.modelUsed = "command-light (attempt " ++ toString attempt ++ ")" := by
  cases resp with
  | none =>
    rw [show stageOneAttempt attempt none = none from rfl] at h
    exact Option.noConfusion h
  | some text =>
    unfold stageOneAttempt at h
    dsimp only at h
    cases hp : tryParseWithCleaning (jsTrim text) with
    | none =>
      rw [hp] at h
      exact absurd h (by simp)
    | some parsed =>
      rw [hp] at h
      dsimp only at h
      split_ifs at h with h1 h2
      · rw [← Option.some.inj h]
        exact ⟨rfl, rfl⟩

theorem stageTwoCleanup_success_fields (resp : Option String)
    (r : GenerationResult) (h : stageTwoCleanup resp = some r) :
    r.warning = none ∧ r.modelUsed = "command-light (cleanup)" := by
  cases resp with
  | none =>
    rw [show stageTwoCleanup none = none from rfl] at h
    exact Option.noConfusion h
  | some text =>
    unfold stageTwoCleanup at h
    dsimp only at h
    cases hp : tryParseWithCleaning (jsTrim text) with
    | none =>
      rw [hp] at h
      exact absurd h (by simp)
    | some parsed =>
      rw [hp] at h
      dsimp only at h
      split_ifs at h with h1 h2
      · rw [← Option.some.inj h]
        exact ⟨rfl, rfl⟩

theorem stageThreeReliable_ok_fields (resp : Option String) (name : String)
    (r : GenerationResult) (h : stageThreeReliable resp name = PostResponse.ok r) :
    r.warning.isSome = true ∧
    (r.modelUsed = "command-r-plus" ∨ r.modelUsed = "fallback") := by
  cases resp with
  | none =>
    rw [show stageThreeReliable none name
        = PostResponse.serverError "Failed to generate shopping list" from rfl] at h
    exact PostResponse.noConfusion h
  | some text =>
    unfold stageThreeReliable at h
    dsimp only at h
    cases hp : jsonParse (jsTrim text) with
    | none =>
      rw [hp] at h
      dsimp only [fallbackResponse] at h
      rw [← PostResponse.ok.inj h]
      exact ⟨rfl, Or.inr rfl⟩
    | some parsed =>
      rw [hp] at h
      dsimp only at h
      split_ifs at h with h1
      · rw [← PostResponse.ok.inj h]
        exact ⟨rfl, Or.inl rfl⟩
      · dsimp only [fallbackResponse] at h
        rw [← PostResponse.ok.inj h]
        exact ⟨rfl, Or.inr rfl⟩

/-- C5 counterexample: when the three stage-1 attempts fail and the Stage-2
cleanup call succeeds, the returned result carries no `warning` — degraded
generation is recorded only in `modelUsed`/`totalAttempts`. -/
theorem stage2_success_no_warning :
    generate clientCleanupSucceeds "Pasta" = PostResponse.ok cleanupEggsResult ∧
    cleanupEggsResult.warning = none := by
  exact ⟨by decide, rfl⟩

/-- C5 (amended): among `generate`'s JSON results, the `warning` field is set
exactly when Stage 3 or the final fallback produced the data; a Stage-2
cleanup success (like every stage-1 success) returns without a warning. -/
theorem warning_iff_stage3_or_fallback (client : Nat → Option String)
    (recipeName : String) (r : GenerationResult)
    (h : generate client recipeName = PostResponse.ok r) :
    (r.warning ≠ none ↔
      (r.modelUsed = "command-r-plus" ∨ r.modelUsed = "fallback")) := by
  unfold generate at h
  split_ifs at h with hname
  cases h1 : stageOneAttempt 1 (client 1) with
  | some r1 =>
    rw [h1] at h
    obtain ⟨hw, hm⟩ := stageOneAttempt_success_fields 1 _ r1 h1
    rw [← PostResponse.ok.inj h, hw, hm]
    decide
  | none =>
    rw [h1] at h
    cases h2 : stageOneAttempt 2 (client 2) with
    | some r2 =>
      rw [h2] at h
      obtain ⟨hw, hm⟩ := stageOneAttempt_success_fields 2 _ r2 h2
      rw [← PostResponse.ok.inj h, hw, hm]
      decide
    | none =>
      rw [h2] at h
      cases h3 : stageOneAttempt 3 (client 3) with
      | some r3 =>
        rw [h3] at h
        obtain ⟨hw, hm⟩ := stageOneAttempt_success_fields 3 _ r3 h3
        rw [← PostResponse.ok.inj h, hw, hm]
        decide
      | none =>
        rw [h3] at h
        cases h4 : stageTwoCleanup (client 4) with
        | some r4 =>
          rw [h4] at h
          obtain ⟨hw, hm⟩ := stageTwoCleanup_success_fields _ r4 h4
          rw [← PostResponse.ok.inj h, hw, hm]
          decide
        | none =>
          rw [h4] at h
          obtain ⟨hw, hm⟩ := stageThreeReliable_ok_fields _ _ _ h
          constructor
          · intro _
            exact hm
          · intro _
            rw [Option.ne_none_iff_isSome]
            exact hw

/-- C5 witness: the amended claim at a Stage-3 success. -/
theorem warning_iff_stage3_or_fallback_witness :
    (reliableEmptyResult.warning ≠ none ↔
      (reliableEmptyResult.modelUsed = "command-r-plus" ∨
       reliableEmptyResult.modelUsed = "fallback")) :=
  warning_iff_stage3_or_fallback clientReliableEmptyObject "Pasta"
    reliableEmptyResult (by decide)

/-- C3: if every upstream call returns text that fails to parse (with
cleaning for stages 1-2, and raw parsing for stage 3), `generate` still
returns a result — the static fallback built from the recipe name, with the
warning set. -/
theorem generate_never_fails_on_garbage (client : Nat → Option String)
    (h : ∀ i, ∃ t, client i = some t ∧
      tryParseWithCleaning (jsTrim t) = none ∧ jsonParse (jsTrim t) = none) :
    ∃ r, generate client "Omelette" = PostResponse.ok r ∧
      r.organizedIngredients = createFallbackShoppingList "Omelette" ∧
      r.modelUsed = "fallback" ∧ r.warning.isSome = true := by
  obtain ⟨t1, hc1, hp1, _⟩ := h 1
  obtain ⟨t2, hc2, hp2, _⟩ := h 2
  obtain ⟨t3, hc3, hp3, _⟩ := h 3
  obtain ⟨t4, hc4, hp4, _⟩ := h 4
  obtain ⟨t5, hc5, _, hq5⟩ := h 5
  have hg : generate client "Omelette"
      = fallbackResponse "Omelette" (jsTrim t5) := by
    unfold generate
    rw [if_neg (by decide : ¬("Omelette" = "")), hc1, hc2, hc3, hc4, hc5]
    simp only [stageOneAttempt, stageTwoCleanup, stageThreeReliable,
      hp1, hp2, hp3, hp4, hq5]
  exact ⟨_, hg, rfl, rfl, rfl⟩

/-- C3 witness: the never-fail property at a client that always answers with
unparsable prose. -/
theorem generate_never_fails_on_garbage_witness :
    generate clientAllGarbage "Omelette"
      ≠ PostResponse.serverError "Failed to generate shopping list" := by
  obtain ⟨r, hr, -, -, -⟩ := generate_never_fails_on_garbage clientAllGarbage
    (fun i => ⟨"I cannot help with that", rfl, rfl, rfl⟩)
  rw [hr]
  simp

/-! ## The two Normalizer variants (C10) -/

/-- C10 counterexample: on `null`, the untyped first variant throws
(`Object.keys(null)`), while the typed second variant returns the fallback
list — so the two definitions do not compute the same function. -/
theorem variants_disagree_on_null :
    normalizeShoppingListV1 Json.null = none ∧
    normalizeShoppingList Json.null = createFallbackShoppingList "unknown" := by
  exact ⟨rfl, by decide⟩

theorem entriesOfV1_objectLike (v : Json) (hv : v.isObjectLike = true) :
    entriesOfV1 v = some (entriesOf v) := by
  cases v with
  | arr l => rfl
  | obj fields => rfl
  | null => simp [Json.isObjectLike] at hv
  | bool b => simp [Json.isObjectLike] at hv
  | num n => simp [Json.isObjectLike] at hv
  | str s => simp [Json.isObjectLike] at hv

theorem normalizeItemV1_agree (item : Json) (ht : tameItem item = true) :
    normalizeItemV1 item = some (embedItem (normalizeItem item)) := by
  cases item with
  | null => exact absurd ht (by decide)
  | str s => rfl
  | bool b => rfl
  | num n => rfl
  | arr l => rfl
  | obj fields =>
    have ht2 : (match getProp (Json.obj fields) "ingredient" with
        | none => true
        | some v => jsFalsy v ||
            (match v with | Json.str _ => true | _ => false)) = true := ht
    cases hi : getProp (Json.obj fields) "ingredient" with
    | none =>
      simp only [normalizeItemV1, normalizeItem, hi, truthyOrDefault,
        embedItem, Json.isObjectLike]
      rfl
    | some w =>
      rw [hi] at ht2
      dsimp only at ht2
      cases w with
      | str s =>
        by_cases hf : jsFalsy (Json.str s) = true
        · simp only [normalizeItemV1, normalizeItem, hi, truthyOrDefault,
            embedItem, Json.isObjectLike, hf]
          rfl
        · have hfb : jsFalsy (Json.str s) = false := Bool.eq_false_iff.mpr hf
          simp only [normalizeItemV1, normalizeItem, hi, truthyOrDefault,
            embedItem, Json.isObjectLike, hfb]
          rfl
      | null =>
        simp only [normalizeItemV1, normalizeItem, hi, truthyOrDefault,
          embedItem, Json.isObjectLike, show jsFalsy Json.null = true from rfl]
        rfl
      | bool b =>
        have hf : jsFalsy (Json.bool b) = true := by
          rcases Bool.or_eq_true_iff.mp ht2 with h | h
          · exact h
          · exact absurd h (by simp [jsFalsy] at h ⊢)
        simp only [normalizeItemV1, normalizeItem, hi, truthyOrDefault,
          embedItem, Json.isObjectLike, hf]
        rfl
      | num n =>
        have hf : jsFalsy (Json.num n) = true := by
          rcases Bool.or_eq_true_iff.mp ht2 with h | h
          · exact h
          · exact absurd h (by simp [jsFalsy] at h ⊢)
        simp only [normalizeItemV1, normalizeItem, hi, truthyOrDefault,
          embedItem, Json.isObjectLike, hf]
        rfl
      | arr l =>
        rcases Bool.or_eq_true_iff.mp ht2 with h | h
        · exact absurd h (by simp [jsFalsy])
        · exact absurd h (by simp)
      | obj o =>
        rcases Bool.or_eq_true_iff.mp ht2 with h | h
        · exact absurd h (by simp [jsFalsy])
        · exact absurd h (by simp)

theorem mapItemsV1_agree (l : List Json) (h : l.all tameItem = true) :
    mapItemsV1 l = some ((l.map normalizeItem).map embedItem) := by
  induction l with
  | nil => rfl
  | cons x xs ih =>
    rw [List.all_cons] at h
    obtain ⟨hx, hxs⟩ := Bool.and_eq_true_iff.mp h
    unfold mapItemsV1
    rw [normalizeItemV1_agree x hx, ih hxs]
    rfl

theorem filter_embedItem (l : List ShoppingItem) :
    (l.map embedItem).filter (fun it => !isUnknownSentinel it.ingredient)
      = (l.filter (fun it => it.ingredient != "Unknown item")).map embedItem := by
  induction l with
  | nil => rfl
  | cons a t ih =>
    simp only [List.map_cons, List.filter_cons]
    have heq : (!isUnknownSentinel (embedItem a).ingredient)
        = (a.ingredient != "Unknown item") := rfl
    rw [heq]
    by_cases hp : (a.ingredient != "Unknown item") = true
    · rw [if_pos hp, if_pos hp, List.map_cons, ih]
    · rw [if_neg hp, if_neg hp, ih]

theorem any_map_het {α β : Type} (f : α → β) (l : List α) (p : β → Bool) :
    (l.map f).any p = l.any (fun a => p (f a)) := by
  induction l with
  | nil => rfl
  | cons a t ih => simp [List.any_cons, ih]

theorem embedSL_setKey (m : ShoppingList) (k : String)
    (its : List ShoppingItem) :
    embedSL (setKey m k its) = setKey (embedSL m) k (its.map embedItem) := by
  unfold setKey embedSL
  have hany : ((m.map (fun p => (p.1, p.2.map embedItem))).any
      (fun p => p.1 == k)) = m.any (fun p => p.1 == k) := by
    rw [any_map_het]
  rw [hany]
  by_cases hm : m.any (fun p => p.1 == k) = true
  · rw [if_pos hm, if_pos hm, List.map_map, List.map_map]
    congr 1
    funext p
    by_cases hp : (p.1 == k) = true
    · simp [Function.comp, hp]
    · simp [Function.comp, hp]
  · rw [if_neg hm, if_neg hm, List.map_append]
    rfl

theorem foldEntriesV1_agree (entries : List (String × Json)) :
    ∀ acc : ShoppingList,
      entries.all (fun kv => (itemsArrayOf kv.2).all tameItem) = true →
      foldEntriesV1 entries (embedSL acc)
        = some (embedSL (entries.foldl normalizeEntry acc)) := by
  induction entries with
  | nil => exact fun _ _ => rfl
  | cons kv t ih =>
    intro acc hall
    rw [List.all_cons] at hall
    obtain ⟨hkv, ht⟩ := Bool.and_eq_true_iff.mp hall
    rw [List.foldl_cons]
    unfold foldEntriesV1
    rw [mapItemsV1_agree _ hkv]
    dsimp only
    rw [filter_embedItem, ← embedSL_setKey]
    exact ih _ ht

/-- C10 (amended): the two `normalizeShoppingList` variants agree on every
input that is a non-null object (or array) whose flattened item lists avoid
the inputs on which they differ — `null` elements (the untyped variant
throws) and object items whose `ingredient` field holds a truthy non-string
value (the untyped variant passes it through raw, the typed one
stringifies).  On such inputs the first variant returns, without failing,
exactly the second variant's output with string ingredients embedded; on
other inputs they diverge, e.g. at `null`. -/
theorem variants_agree_on_tame_objects (v : Json)
    (hobj : v.isObjectLike = true)
    (htame : (entriesOf v).all
      (fun kv => (itemsArrayOf kv.2).all tameItem) = true) :
    normalizeShoppingListV1 v = some (embedSL (normalizeShoppingList v)) := by
  unfold normalizeShoppingListV1
  rw [entriesOfV1_objectLike v hobj]
  rw [normalizeShoppingList_objectLike v hobj]
  rw [show seededAislesV1 = embedSL seededAisles from rfl]
  exact foldEntriesV1_agree _ _ htame

/-- C10 witness: the agreement at a concrete object input. -/
theorem variants_agree_on_tame_objects_witness :
    normalizeShoppingListV1 (Json.obj [("Produce", Json.arr [Json.str "milk"])])
      = some (embedSL (normalizeShoppingList
          (Json.obj [("Produce", Json.arr [Json.str "milk"])]))) :=
  variants_agree_on_tame_objects
    (Json.obj [("Produce", Json.arr [Json.str "milk"])]) (by decide) (by decide)

end RecipeOrganizer
